import Mathlib

/-!
Verification of the Dimport replay pipeline (src/cli.rs, src/utils.rs,
src/models.rs).  The Rust code is shallowly embedded: pure functions become
Lean functions, the mutable `HashSet<PathBuf>` of claimed paths becomes an
explicitly threaded list, the filesystem probed by `Path::exists` becomes an
explicit finite list of existing paths, and the unbounded numbered-variant
loop is run with enough fuel (`|fs| + 1`) to always reach the first missing
index.  Fallible sends are modelled by the list of attempted batches.
-/

namespace Dimport

/-- A local path, as manipulated by the Rust code through `PathBuf`:
a parent directory (list of components) plus a file name.  `parent`,
`file_stem`, `extension` and `join` of the Rust std library correspond to
`dir`, `(splitExt file).1`, `(splitExt file).2` and appending to `dir`. -/
structure MPath where
  dir : List String
  file : String
deriving DecidableEq

/-- Rust `char::to_ascii_lowercase` on one character. -/
def asciiLowerChar (c : Char) : Char :=
  if 'A' ≤ c ∧ c ≤ 'Z' then Char.ofNat (c.toNat + 32) else c

/-- Rust `str::to_ascii_lowercase`. -/
def toAsciiLower (s : String) : String :=
  ⟨s.data.map asciiLowerChar⟩

/-- Rust `Path::file_stem` / `Path::extension` applied to a file name:
the stem is everything before the last dot, except that a name with no dot,
or a leading-dot name with no other dot, has no extension. -/
def splitExt (file : String) : String × Option String :=
  let rev := file.data.reverse
  if '.' ∈ rev then
    let extRev := rev.takeWhile (fun c => c != '.')
    let stemRev := rev.drop (extRev.length + 1)
    if stemRev.isEmpty then (file, none)
    else (⟨stemRev.reverse⟩, some ⟨extRev.reverse⟩)
  else (file, none)

/-- Rust `format!("{i:03}")`: decimal, left-padded with zeros to width 3. -/
def pad3 (i : Nat) : String :=
  let s := toString i
  if s.length ≥ 3 then s else ⟨List.replicate (3 - s.length) '0'⟩ ++ s

/-- `FileIndex = HashMap<String, Vec<PathBuf>>` from src/models.rs,
modelled as an association list (keys are lowercased file names). -/
def FileIndex := List (String × List MPath)

/-- `HashMap::get`. -/
def indexLookup (idx : FileIndex) (key : String) : Option (List MPath) :=
  (idx.find? (fun e => e.1 == key)).map Prod.snd

/-- `IMAGE_EXTENSIONS` from src/models.rs. -/
def IMAGE_EXTENSIONS : List String := ["jpg", "jpeg", "png", "webp", "gif", "avif"]

/-- `MAX_EMBEDS` from src/models.rs. -/
def MAX_EMBEDS : Nat := 10

/-- `MAX_ATTACHMENTS` from src/models.rs. -/
def MAX_ATTACHMENTS : Nat := 10

/-- `is_image_file` from src/utils.rs. -/
def is_image_file (filename : String) : Bool :=
  IMAGE_EXTENSIONS.any (fun ext => (toAsciiLower filename).endsWith ext)

/-- `Mention` from src/models.rs. -/
structure Mention where
  id : Nat
  name : String
  nickname : Option String

/-- `AttachmentInfo` from src/models.rs. -/
structure AttachmentInfo where
  url : String
  file_name : String

/-- `Author` from src/models.rs (the avatar URL and accent color carry no
claim-relevant structure beyond being strings). -/
structure Author where
  id : Nat
  name : String
  avatar_url : String
  color : Option String

/-- `MessageInfo` from src/models.rs.  The timestamp fields and the loosely
typed reaction payloads are not referenced by any claim; reactions are passed
to the send functions as an abstract list. -/
structure MessageInfo where
  content : String
  author : Author
  attachments : List AttachmentInfo
  mentions : List Mention

/-- `GuildInfo` from src/models.rs. -/
structure GuildInfo where
  name : String

/-- `ChannelInfo` from src/models.rs. -/
structure ChannelInfo where
  name : String
  category : Option String

/-- `Export` from src/models.rs. -/
structure Export where
  guild : GuildInfo
  channel : ChannelInfo
  messages : List MessageInfo

/-- `MediaSource` from src/models.rs. -/
inductive MediaSource where
  | Local (path : MPath) (name : String)
  | Remote (url : String)
deriving DecidableEq

/-- `select_messages` from src/cli.rs lines 19-42 (identical in
src/main.rs lines 774-797).  `&messages[s..=(e.min(len-1))]` is
`(drop s).take (min e (len-1) + 1 - s)`; `&messages[0..n.min(len)]` is
`take (min n len)`; `&messages[len.saturating_sub(n)..]` is
`drop (len - n)`. -/
def select_messages {α : Type} (messages : List α)
    (range_start range_end first last : Option Nat) : List α :=
  let len := messages.length
  match range_start, range_end with
  | some s, some e =>
    if s ≤ e ∧ s < len then (messages.drop s).take (Nat.min e (len - 1) + 1 - s)
    else messages
  | _, _ =>
    match first with
    | some n => if n > 0 then messages.take (Nat.min n len) else messages
    | none =>
      match last with
      | some n => if n > 0 then messages.drop (len - n) else messages
      | none => messages

/-- `generate_footer` from src/utils.rs lines 170-189. -/
def generate_footer (exp : Export)
    (no_guild no_category no_channel : Bool) : String :=
  let parts : List String :=
    (if !no_guild then [exp.guild.name] else []) ++
    (match exp.channel.category with
     | some category => if !no_category then [category] else []
     | none => []) ++
    (if !no_channel then [exp.channel.name] else [])
  String.intercalate " | " parts

/-- `build_completion_message` from src/cli.rs lines 6-18. -/
def build_completion_message (exp : Export)
    (no_guild no_category no_channel : Bool) : String :=
  let footer_text := generate_footer exp no_guild no_category no_channel
  if footer_text = "" then "Successfully imported"
  else "Successfully imported " ++ footer_text

/-- The parts the footer is built from, written from the amended reading of
the spec: a part is included exactly when its visibility flag is on (and,
for the category, when it is present); emptiness of the part plays no role. -/
def footer_parts_spec (exp : Export)
    (no_guild no_category no_channel : Bool) : List String :=
  (if no_guild then [] else [exp.guild.name]) ++
  (match exp.channel.category with
   | some category => if no_category then [] else [category]
   | none => []) ++
  (if no_channel then [] else [exp.channel.name])

/-- `paths.iter().find(|path| seen_paths.insert((*path).clone()))` from
`find_local_files`: walks the candidate list, claiming and returning the
first unclaimed path (`HashSet::insert` returns true and adds the path
exactly when it is not already present); already-claimed candidates leave
the set unchanged. -/
def find_first_unclaimed : List MPath → List MPath →
    Option MPath × List MPath
  | [], seen => (none, seen)
  | p :: ps, seen =>
    if p ∈ seen then find_first_unclaimed ps seen
    else (some p, p :: seen)

/-- The `for i in 1..` numbered-variant probe of `find_local_files`
(src/utils.rs lines 260-281): probe `<stem>_NNN.<ext>` in the same
directory until the first index that does not exist on disk, appending each
existing, newly claimed variant (an existing but already-claimed variant is
skipped, and the loop continues).  The filesystem is the finite list `fs`;
the unbounded loop is run with fuel, which the caller sets to `fs.length + 1`
— by then an index missing from `fs` has necessarily been reached, so the
fuel never cuts the loop short. -/
def probe_variants (fs : List MPath) (dir : List String) (stem ext : String) :
    Nat → Nat → List (MPath × String) → List MPath →
    List (MPath × String) × List MPath
  | 0, _, acc, seen => (acc, seen)
  | fuel + 1, i, acc, seen =>
    let vp : MPath := ⟨dir, stem ++ "_" ++ pad3 i ++ "." ++ ext⟩
    if vp ∈ fs then
      if vp ∈ seen then probe_variants fs dir stem ext fuel (i + 1) acc seen
      else probe_variants fs dir stem ext fuel (i + 1)
        (acc ++ [(vp, vp.file)]) (vp :: seen)
    else (acc, seen)

/-- `find_local_files` from src/utils.rs lines 249-284: case-insensitive
exact lookup, claim of the first unclaimed candidate, then the numbered
variant probe next to it. -/
def find_local_files (filename : String) (file_index : FileIndex)
    (fs : List MPath) (seen : List MPath) :
    List (MPath × String) × List MPath :=
  match indexLookup file_index (toAsciiLower filename) with
  | none => ([], seen)
  | some paths =>
    match find_first_unclaimed paths seen with
    | (none, seen1) => ([], seen1)
    | (some p, seen1) =>
      match splitExt p.file with
      | (stem, some ext) =>
        probe_variants fs p.dir stem ext (fs.length + 1) 1 [(p, filename)] seen1
      | (_, none) => ([(p, filename)], seen1)

/-- The `IMAGE_EXTENSIONS.iter().find_map(..)` body of `find_avatar`,
generalized over the extension list for induction. -/
def find_avatar_aux (author_id : Nat) (file_index : FileIndex)
    (exts : List String) : Option (MPath × String) :=
  exts.findSome? (fun ext =>
    ((indexLookup file_index (toString author_id ++ "." ++ ext)).bind
      List.head?).map
      (fun p => (p, toString author_id ++ "." ++ ext)))

/-- `find_avatar` from src/utils.rs lines 237-248: try
`<authorId>.<ext>` for each extension in `IMAGE_EXTENSIONS` order, return
the first head-of-candidate-list hit; an extension whose candidate list is
missing or empty is skipped.  Note it takes no `seen_paths` argument at all:
avatar resolution neither consults nor updates the claimed-path set. -/
def find_avatar (author_id : Nat) (file_index : FileIndex) :
    Option (MPath × String) :=
  find_avatar_aux author_id file_index IMAGE_EXTENSIONS

/-- The `if let Some(index) = file_index` guard of `collect_sources`: the
local resolution runs only when an index exists. -/
def resolve_local (idx : Option FileIndex) (fs : List MPath)
    (fname : String) (seen : List MPath) :
    List (MPath × String) × List MPath :=
  match idx with
  | some index => find_local_files fname index fs seen
  | none => ([], seen)

/-- The candidate list the lookup of `find_local_files` would consult for
a file name (empty when there is no index or no entry). -/
def lookup_candidates (idx : Option FileIndex) (fname : String) :
    List MPath :=
  match idx with
  | some index => (indexLookup index (toAsciiLower fname)).getD []
  | none => []

/-- The per-attachment body of the `for attachment_info in &message.attachments`
loop of `collect_sources` (src/utils.rs lines 292-307): local files if any
were resolved (`found_local`), otherwise the single remote URL. -/
def attachment_step (idx : Option FileIndex) (fs : List MPath)
    (att : AttachmentInfo) (seen : List MPath) :
    List MediaSource × List MPath :=
  let r := resolve_local idx fs att.file_name seen
  if r.1.isEmpty then ([MediaSource.Remote att.url], r.2)
  else (r.1.map (fun pf => MediaSource.Local pf.1 pf.2), r.2)

/-- `collect_sources` from src/utils.rs lines 285-309, with the message's
attachment list passed directly and the claimed-path set threaded. -/
def collect_sources (atts : List AttachmentInfo) (idx : Option FileIndex)
    (fs : List MPath) (seen : List MPath)
    (filt : AttachmentInfo → Bool) : List MediaSource × List MPath :=
  match atts with
  | [] => ([], seen)
  | att :: rest =>
    if filt att then
      let r := attachment_step idx fs att seen
      let rr := collect_sources rest idx fs r.2 filt
      (r.1 ++ rr.1, rr.2)
    else collect_sources rest idx fs seen filt

/-- `replace_mentions` from src/utils.rs lines 310-322: plain substring
replacement of `@<nickname-or-name>` by `<@id>` for each mention. -/
def replace_mentions (content : String) (mentions : List Mention)
    (no_mentions : Bool) : String :=
  if no_mentions then content
  else
    mentions.foldl (fun acc m =>
      acc.replace ("@" ++ (m.nickname.getD m.name))
        ("<@" ++ toString m.id ++ ">")) content

/-- The embed fields the composer manipulates: whether the embed was cloned
from the metadata `base_embed` (author, footer, timestamp, color) or is a
bare fresh one, plus the description, click-through URL and image reference
the composer sets. -/
structure BEmbed where
  fromBase : Bool
  description : Option String
  url : Option String
  image : Option String
deriving DecidableEq

/-- `MessageBatch` from src/models.rs. -/
structure MessageBatch where
  attachments : List MPath
  embeds : List BEmbed
  count : Nat
deriving DecidableEq

/-- One attempted `ctx.send`: a `poise::CreateReply` with its optional plain
content, embeds, attachments, and whether the reaction-button row was
attached. -/
structure Reply where
  content : Option String
  embeds : List BEmbed
  attachments : List MPath
  buttons : Bool
deriving DecidableEq

/-- Whether a `MediaSource` is `Local`. -/
def MediaSource.isLocal : MediaSource → Bool
  | MediaSource.Local _ _ => true
  | MediaSource.Remote _ => false

/-- `with_reaction_buttons` from src/utils.rs lines 422-435, reduced to
whether the button row is attached: `create_buttons` maps every reaction to
one button, so the row is non-empty exactly when `reactions` is. -/
def has_button_row {ρ : Type} (button : Bool) (reactions : List ρ) : Bool :=
  button && !reactions.isEmpty

/-- The embed built for one image in `prepare_batch`: the first embed of the
first batch clones `base_embed` and carries the body text as description
(when non-empty); every other embed is bare.  Both get the shared
click-through URL and the image reference. -/
def image_embed (is_first_batch : Bool) (n : Nat) (content embed_url : String)
    (image : Option String) : BEmbed :=
  if n = 0 ∧ is_first_batch then
    ⟨true, if content = "" then none else some content, some embed_url, image⟩
  else ⟨false, none, some embed_url, image⟩

/-- The `for source in images` loop of `prepare_batch` (src/cli.rs lines
218-250), threading attachments, embeds and the processed count.  `loadOk`
models which local paths `CreateAttachment::path` loads successfully; a
local image that fails to load is skipped (`continue`), while the two cap
checks break out of the loop. -/
def prepare_loop (loadOk : MPath → Bool) (is_first_batch : Bool)
    (content embed_url : String) :
    List MediaSource → List MPath → List BEmbed → Nat → MessageBatch
  | [], atts, embs, n => ⟨atts, embs, n⟩
  | source :: rest, atts, embs, n =>
    if embs.length ≥ MAX_EMBEDS then ⟨atts, embs, n⟩
    else if source.isLocal ∧ atts.length ≥ MAX_ATTACHMENTS then ⟨atts, embs, n⟩
    else
      match source with
      | MediaSource.Local path fname =>
        if loadOk path then
          prepare_loop loadOk is_first_batch content embed_url rest
            (atts ++ [path])
            (embs ++ [image_embed is_first_batch n content embed_url
              (some ("attachment://" ++ fname))])
            (n + 1)
        else
          prepare_loop loadOk is_first_batch content embed_url rest atts embs n
      | MediaSource.Remote u =>
        prepare_loop loadOk is_first_batch content embed_url rest atts
          (embs ++ [image_embed is_first_batch n content embed_url (some u)])
          (n + 1)

/-- `prepare_batch` from src/cli.rs lines 200-256: on the first batch the
avatar attachment (if it loads) is pushed ahead of the image attachments
and counts against the attachment limit. -/
def prepare_batch (images : List MediaSource)
    (author_avatar_file : Option (MPath × String)) (is_first_batch : Bool)
    (content embed_url : String) (loadOk : MPath → Bool) : MessageBatch :=
  let atts0 : List MPath :=
    if is_first_batch then
      match author_avatar_file with
      | some (path, _) => if loadOk path then [path] else []
      | none => []
    else []
  prepare_loop loadOk is_first_batch content embed_url images atts0 [] 0

/-- The `while !remaining_images.is_empty()` loop of `send_image_messages`
(src/cli.rs lines 297-323), as the list of attempted sends: a batch is sent
only if it has embeds; the button row is attached exactly when buttons are
requested, reactions are non-empty and no sources remain after the batch;
`batch.count == 0` breaks the loop.  Each non-breaking iteration consumes
at least one source, so fuel `remaining.length + 1` never cuts the loop
short. -/
def send_image_loop {ρ : Type} (avatar : Option (MPath × String))
    (content embed_url : String) (loadOk : MPath → Bool) (button : Bool)
    (reactions : List ρ) :
    Nat → List MediaSource → Bool → List Reply
  | 0, _, _ => []
  | fuel + 1, remaining, is_first_batch =>
    if remaining.isEmpty then []
    else
      let batch := prepare_batch remaining avatar is_first_batch content
        embed_url loadOk
      let sent : List Reply :=
        if batch.embeds.isEmpty then []
        else
          [⟨none, batch.embeds, batch.attachments,
            has_button_row button reactions
              && decide (remaining.length ≤ batch.count)⟩]
      if batch.count = 0 then sent
      else
        sent ++ send_image_loop avatar content embed_url loadOk button
          reactions fuel (remaining.drop batch.count) false

/-- `send_image_messages` from src/cli.rs lines 280-326.  The reaction-user
listing is a separate informational message, not a composer batch. -/
def send_image_messages {ρ : Type} (message : MessageInfo)
    (image_sources : List MediaSource) (avatar : Option (MPath × String))
    (embed_url : String) (no_mentions button : Bool) (reactions : List ρ)
    (loadOk : MPath → Bool) : List Reply :=
  let content := replace_mentions message.content message.mentions no_mentions
  send_image_loop avatar content embed_url loadOk button reactions
    (image_sources.length + 1) image_sources true

/-- `send_text_message` from src/cli.rs lines 257-279: zero batches when the
transformed content is empty and no avatar was resolved, otherwise exactly
one (with the avatar attached only if it loads, and the description set
unconditionally). -/
def send_text_message {ρ : Type} (message : MessageInfo)
    (avatar : Option (MPath × String)) (no_mentions button : Bool)
    (reactions : List ρ) (loadOk : MPath → Bool) : List Reply :=
  let content := replace_mentions message.content message.mentions no_mentions
  if content = "" ∧ avatar = none then []
  else
    [⟨none, [⟨true, some content, none, none⟩],
      (match avatar with
       | some (path, _) => if loadOk path then [path] else []
       | none => []),
      has_button_row button reactions⟩]

/-- The `while !remaining_locals.is_empty()` drain of `send_outside_message`
(src/cli.rs lines 398-407): chunks of at most `MAX_ATTACHMENTS`, later
chunks carrying no content.  Each chunk removes at least one attachment, so
fuel `locals.length` is always sufficient. -/
def drain_batches {ρ : Type} (button : Bool) (reactions : List ρ) :
    Nat → List MPath → List Reply
  | 0, _ => []
  | fuel + 1, locals =>
    if locals.isEmpty then []
    else
      ⟨none, [], locals.take MAX_ATTACHMENTS, has_button_row button reactions⟩
        :: drain_batches button reactions fuel (locals.drop MAX_ATTACHMENTS)

/-- `send_outside_message` from src/cli.rs lines 343-421: loadable local
attachments are collected, remote URLs are folded into the content after the
body; an optional embed-only metadata batch (with the avatar) goes first,
then the first attachment chunk carries the combined content, then further
chunks of at most 10.  The final retro-edit of buttons onto the last sent
message adds no batch. -/
def send_outside_message {ρ : Type} (message : MessageInfo)
    (has_base_embed : Bool) (attachment_sources : List MediaSource)
    (avatar : Option (MPath × String)) (no_mentions button : Bool)
    (reactions : List ρ) (loadOk : MPath → Bool) : List Reply :=
  let locals : List MPath := attachment_sources.filterMap (fun s =>
    match s with
    | MediaSource.Local path _ => if loadOk path then some path else none
    | MediaSource.Remote _ => none)
  let remotes : List String := attachment_sources.filterMap (fun s =>
    match s with
    | MediaSource.Local _ _ => none
    | MediaSource.Remote u => some u)
  let content0 := replace_mentions message.content message.mentions no_mentions
  let content :=
    if remotes.isEmpty then content0
    else
      (if content0 = "" then content0 else content0 ++ "\n")
        ++ String.intercalate "\n" remotes
  let metaBatch : List Reply :=
    if has_base_embed then
      [⟨none, [⟨true, none, none, none⟩],
        (match avatar with
         | some (path, _) => if loadOk path then [path] else []
         | none => []), false⟩]
    else []
  let tailBatches : List Reply :=
    if content ≠ "" ∨ ¬locals.isEmpty then
      ⟨if content = "" then none else some content, [],
        locals.take MAX_ATTACHMENTS, has_button_row button reactions⟩
        :: drain_batches button reactions locals.length
            (locals.drop MAX_ATTACHMENTS)
    else []
  metaBatch ++ tailBatches

/-- The platform cap on one outbound batch: at most 10 embeds and at most
10 attachments. -/
def within_limits (b : Reply) : Bool :=
  decide (b.embeds.length ≤ MAX_EMBEDS)
    && decide (b.attachments.length ≤ MAX_ATTACHMENTS)

/-- `ImportOptions` from src/models.rs. -/
structure ImportOptions where
  no_guild : Bool
  no_category : Bool
  no_channel : Bool
  no_timestamp : Bool
  no_mentions : Bool
  no_reactions : Bool
  no_embed : Bool
  button : Bool
  reaction_users : Bool
  outside : Bool
  disable_button : Bool
  accent_color : Bool
  current_avatar : Bool
  range_start : Option Nat
  range_end : Option Nat
  first : Option Nat
  last : Option Nat
deriving DecidableEq

/-- `ImportOptions::default()`: all flags false, all selectors absent. -/
def ImportOptions.default : ImportOptions :=
  ⟨false, false, false, false, false, false, false, false, false, false,
   false, false, false, none, none, none, none⟩

/-- Rust `str::split_once(',')`: split at the first comma, if any. -/
def split_once_comma (s : String) : Option (String × String) :=
  if ',' ∈ s.data then
    some (⟨s.data.takeWhile (fun c => c != ',')⟩,
      ⟨(s.data.dropWhile (fun c => c != ',')).drop 1⟩)
  else none

/-- Rust `str::parse::<usize>()`: an optional leading `+`, then one or more
ASCII digits (overflow is not modelled; the claims use small values). -/
def parse_usize (s : String) : Option Nat :=
  let cs :=
    match s.data with
    | '+' :: rest => rest
    | cs => cs
  if cs ≠ [] ∧ cs.all Char.isDigit then
    some (cs.foldl (fun acc c => acc * 10 + (c.toNat - 48)) 0)
  else none

/-- The `while index < arguments.len()` flag-parsing loop of `parse_options`
(src/cli.rs lines 77-126), with value-taking flags consuming the following
token. -/
def parse_flags : List String → ImportOptions → Except String ImportOptions
  | [], o => Except.ok o
  | a :: rest, o =>
    match a with
    | "--no-guild" => parse_flags rest { o with no_guild := true }
    | "--no-category" => parse_flags rest { o with no_category := true }
    | "--no-channel" => parse_flags rest { o with no_channel := true }
    | "--no-timestamp" => parse_flags rest { o with no_timestamp := true }
    | "--no-mentions" => parse_flags rest { o with no_mentions := true }
    | "--no-reactions" => parse_flags rest { o with no_reactions := true }
    | "--no-embed" => parse_flags rest { o with no_embed := true }
    | "--button" => parse_flags rest { o with button := true }
    | "--reaction-users" => parse_flags rest { o with reaction_users := true }
    | "--outside" => parse_flags rest { o with outside := true }
    | "--disable-button" => parse_flags rest { o with disable_button := true }
    | "--range" =>
      match rest with
      | [] => Except.error "Missing value for --range"
      | v :: rest2 =>
        match split_once_comma v with
        | none => Except.error "Invalid format for --range. Use start,end"
        | some (s, e) =>
          match parse_usize s with
          | none => Except.error "Invalid start value in --range"
          | some sv =>
            match parse_usize e with
            | none => Except.error "Invalid end value in --range"
            | some ev =>
              parse_flags rest2
                { o with range_start := some sv, range_end := some ev }
    | "--range-start" =>
      match rest with
      | [] => Except.error "Missing value for --range-start"
      | v :: rest2 =>
        match parse_usize v with
        | none => Except.error "Invalid value for --range-start"
        | some nv => parse_flags rest2 { o with range_start := some nv }
    | "--range-end" =>
      match rest with
      | [] => Except.error "Missing value for --range-end"
      | v :: rest2 =>
        match parse_usize v with
        | none => Except.error "Invalid value for --range-end"
        | some nv => parse_flags rest2 { o with range_end := some nv }
    | "--first" =>
      match rest with
      | [] => Except.error "Missing value for --first"
      | v :: rest2 =>
        match parse_usize v with
        | none => Except.error "Invalid value for --first"
        | some nv => parse_flags rest2 { o with first := some nv }
    | "--last" =>
      match rest with
      | [] => Except.error "Missing value for --last"
      | v :: rest2 =>
        match parse_usize v with
        | none => Except.error "Invalid value for --last"
        | some nv => parse_flags rest2 { o with last := some nv }
    | unknown => Except.error ("Unknown option: " ++ unknown)

/-- `parse_options` from src/cli.rs lines 66-137: the parsing loop followed
by the three combination checks, in source order. -/
def parse_options (arguments : List String) : Except String ImportOptions :=
  match parse_flags arguments ImportOptions.default with
  | Except.error e => Except.error e
  | Except.ok o =>
    if o.no_reactions ∧ o.button then
      Except.error "--no-reactions and --button cannot be used together"
    else if o.disable_button ∧ ¬o.button then
      Except.error "--disable-button can only be used with --button"
    else if o.no_embed ∧ ¬o.outside then
      Except.error "--no-embed can only be used with --outside"
    else Except.ok o

/-- The `for message in messages_to_process` loop of `import` (src/cli.rs
lines 586-610): the cancellation flag is polled once before each message;
`cancelAt i` is the flag's value at the poll preceding message `i` (the flag
is external shared state, settable between iterations).  Returns the fully
processed messages in order and whether the loop was cancelled. -/
def import_loop {μ : Type} (cancelAt : Nat → Bool) :
    List μ → Nat → List μ × Bool
  | [], _ => ([], false)
  | m :: rest, i =>
    if cancelAt i then ([], true)
    else
      let r := import_loop cancelAt rest (i + 1)
      (m :: r.1, r.2)

/-- The selection, loop and final report of the `import` command (src/cli.rs
lines 565-623): select the subrange, run the cancellable loop, and report
either the fixed cancellation message or the success summary built under
the same visibility flags. -/
def run_import (exp : Export)
    (range_start range_end first last : Option Nat)
    (no_guild no_category no_channel : Bool) (cancelAt : Nat → Bool) :
    List MessageInfo × String :=
  let msgs := select_messages exp.messages range_start range_end first last
  if msgs.isEmpty then ([], "No messages to import.")
  else
    let r := import_loop cancelAt msgs 0
    (r.1,
      if r.2 then "Import cancelled"
      else build_completion_message exp no_guild no_category no_channel)

end Dimport

namespace Dimport

/-- C1, part as stated is false: with both range bounds present but invalid
(start 2 > end 1) and a valid first-N selector (first 3), the code returns
the full message list, not the first 3 messages the claimed fall-through
would select. -/
theorem select_messages_falls_to_full_not_first :
    select_messages [0, 1, 2, 3, 4] (some 2) (some 1) (some 3) none
      = [0, 1, 2, 3, 4] ∧
    ([0, 1, 2, 3, 4] : List Nat) ≠ [0, 1, 2] := by
  constructor
  · rfl
  · decide

/-- C1 (amended): a valid range (both bounds present, start ≤ end,
start < len) selects `messages[start..=min(end, len-1)]`; an invalid range
with both bounds present yields the full list directly, without consulting
first-N or last-N; first-N applies only when the range is not fully
specified (N = 0 yields the full list, again without consulting last-N);
last-N applies only when the range is not fully specified and first-N is
absent (N = 0 yields the full list); with no selector the full list is
returned. -/
theorem select_messages_priority_amended {α : Type} (msgs : List α)
    (rs re f l : Option Nat) :
    (∀ s e, rs = some s → re = some e → s ≤ e → s < msgs.length →
      select_messages msgs rs re f l
        = (msgs.drop s).take (Nat.min e (msgs.length - 1) + 1 - s)) ∧
    (∀ s e, rs = some s → re = some e → ¬(s ≤ e ∧ s < msgs.length) →
      select_messages msgs rs re f l = msgs) ∧
    ((rs = none ∨ re = none) → ∀ n, f = some n →
      (0 < n → select_messages msgs rs re f l
        = msgs.take (Nat.min n msgs.length)) ∧
      (n = 0 → select_messages msgs rs re f l = msgs)) ∧
    ((rs = none ∨ re = none) → f = none → ∀ n, l = some n →
      (0 < n → select_messages msgs rs re f l
        = msgs.drop (msgs.length - n)) ∧
      (n = 0 → select_messages msgs rs re f l = msgs)) ∧
    ((rs = none ∨ re = none) → f = none → l = none →
      select_messages msgs rs re f l = msgs) := by
  refine ⟨?_, ?_, ?_, ?_, ?_⟩
  · intro s e hrs hre h1 h2
    subst hrs; subst hre
    simp only [select_messages]
    rw [if_pos ⟨h1, h2⟩]
  · intro s e hrs hre hnot
    subst hrs; subst hre
    simp only [select_messages]
    rw [if_neg hnot]
  · intro hor n hf
    subst hf
    constructor
    · intro hn
      rcases hor with h | h
      · subst h; cases re <;> simp [select_messages, hn]
      · subst h; cases rs <;> simp [select_messages, hn]
    · intro hn
      subst hn
      rcases hor with h | h
      · subst h; cases re <;> simp [select_messages]
      · subst h; cases rs <;> simp [select_messages]
  · intro hor hf n hl
    subst hf; subst hl
    constructor
    · intro hn
      rcases hor with h | h
      · subst h; cases re <;> simp [select_messages, hn]
      · subst h; cases rs <;> simp [select_messages, hn]
    · intro hn
      subst hn
      rcases hor with h | h
      · subst h; cases re <;> simp [select_messages]
      · subst h; cases rs <;> simp [select_messages]
  · intro hor hf hl
    subst hf; subst hl
    rcases hor with h | h
    · subst h; cases re <;> rfl
    · subst h; cases rs <;> rfl

/-- Witness for `select_messages_priority_amended`: concrete checks of the
valid-range branch and the zero-first branch. -/
theorem select_messages_priority_amended_witness :
    select_messages [10, 11, 12, 13] (some 1) (some 7) none none
      = [11, 12, 13] ∧
    select_messages ([10, 11, 12, 13] : List Nat) none none (some 0) (some 2)
      = [10, 11, 12, 13] := by
  constructor
  · have h := (select_messages_priority_amended [10, 11, 12, 13]
      (some 1) (some 7) none none).1 1 7 rfl rfl (by decide) (by decide)
    rw [h]
    decide
  · have h := ((select_messages_priority_amended ([10, 11, 12, 13] : List Nat)
      none none (some 0) (some 2)).2.2.1 (Or.inl rfl) 0 rfl).2 rfl
    exact h

/-- C9, part as stated is false: with an empty but visible guild name and a
visible channel name "c", the footer is " | c" — the empty guild part still
contributes a separator instead of being dropped from the join. -/
theorem generate_footer_keeps_empty_parts :
    generate_footer ⟨⟨""⟩, ⟨"c", none⟩, []⟩ false false false = " | c" ∧
    (" | c" : String) ≠ "c" := by
  constructor
  · rfl
  · decide

/-- C9 (amended): the footer is the `" | "`-join of exactly the parts
selected by the hide flags (guild unless hidden, category if present and not
hidden, channel unless hidden); a hidden part or absent category contributes
neither text nor separator, but a visible empty part is joined as-is and
still contributes a separator.  The completion summary is built from the
same footer under the same visibility flags, prefixed by
"Successfully imported". -/
theorem footer_and_completion_amended (exp : Export)
    (no_guild no_category no_channel : Bool) :
    generate_footer exp no_guild no_category no_channel
      = String.intercalate " | "
          (footer_parts_spec exp no_guild no_category no_channel) ∧
    build_completion_message exp no_guild no_category no_channel
      = (if generate_footer exp no_guild no_category no_channel = ""
         then "Successfully imported"
         else "Successfully imported "
           ++ generate_footer exp no_guild no_category no_channel) := by
  constructor
  · obtain ⟨⟨g⟩, ⟨cn, cat⟩, ms⟩ := exp
    cases no_guild <;> cases no_category <;> cases no_channel <;>
      cases cat <;> rfl
  · rfl

/-- The C2 scenario's index: one entry for `a.png`, found in directory `m`. -/
def c2_index : FileIndex := [("a.png", [⟨["m"], "a.png"⟩])]

/-- The C2 scenario's filesystem: `a.png` and the numbered variants
`a_001.png`, `a_002.png`, `a_003.png` (and no `a_004.png`). -/
def c2_fs : List MPath :=
  [⟨["m"], "a.png"⟩, ⟨["m"], "a_001.png"⟩, ⟨["m"], "a_002.png"⟩,
   ⟨["m"], "a_003.png"⟩]

/-- C2: against files `a.png`, `a_001.png`, `a_002.png`, `a_003.png` (no
`a_004.png`), resolving `"a.png"` from an empty claimed set returns the
4 files in ascending variant order (the probe stops at the missing
`a_004.png`), and resolving `"a.png"` again with the resulting claimed set
returns the empty list. -/
theorem find_local_files_exactly_once :
    (find_local_files "a.png" c2_index c2_fs []).1
      = [(⟨["m"], "a.png"⟩, "a.png"), (⟨["m"], "a_001.png"⟩, "a_001.png"),
         (⟨["m"], "a_002.png"⟩, "a_002.png"),
         (⟨["m"], "a_003.png"⟩, "a_003.png")] ∧
    (find_local_files "a.png" c2_index c2_fs
      (find_local_files "a.png" c2_index c2_fs []).2).1 = [] := by
  decide

theorem find_first_unclaimed_all_claimed (paths seen : List MPath)
    (h : ∀ p ∈ paths, p ∈ seen) :
    find_first_unclaimed paths seen = (none, seen) := by
  induction paths with
  | nil => rfl
  | cons p ps ih =>
    have hp : p ∈ seen := h p (List.mem_cons_self p ps)
    simp only [find_first_unclaimed, if_pos hp]
    exact ih (fun q hq => h q (List.mem_cons_of_mem p hq))

theorem find_local_files_all_claimed (fname : String) (index : FileIndex)
    (fs seen : List MPath)
    (h : ∀ p ∈ (indexLookup index (toAsciiLower fname)).getD [], p ∈ seen) :
    find_local_files fname index fs seen = ([], seen) := by
  unfold find_local_files
  cases hl : indexLookup index (toAsciiLower fname) with
  | none => rfl
  | some paths =>
    dsimp only
    rw [find_first_unclaimed_all_claimed paths seen
      (fun p hp => h p (by rw [hl]; exact hp))]

/-- C3: for an attachment reaching the loop body of `collect_sources`, the
produced sources are either a non-empty all-Local list or exactly the one
Remote source with the attachment's original URL — never both, never
neither; when every exact-lookup candidate is already claimed, the result
is entirely the remote URL; and `collect_sources` processes each attachment
passing the filter through exactly this step, threading the claimed set. -/
theorem collect_sources_local_xor_remote (idx : Option FileIndex)
    (fs : List MPath) (seen : List MPath) (att : AttachmentInfo) :
    (((attachment_step idx fs att seen).1 ≠ [] ∧
       ∀ src ∈ (attachment_step idx fs att seen).1,
         ∃ p n, src = MediaSource.Local p n) ∨
      (attachment_step idx fs att seen).1 = [MediaSource.Remote att.url]) ∧
    ((∀ p ∈ lookup_candidates idx att.file_name, p ∈ seen) →
      (attachment_step idx fs att seen).1 = [MediaSource.Remote att.url]) ∧
    (∀ rest filt, filt att = true →
      collect_sources (att :: rest) idx fs seen filt
        = ((attachment_step idx fs att seen).1
            ++ (collect_sources rest idx fs
                  (attachment_step idx fs att seen).2 filt).1,
           (collect_sources rest idx fs
              (attachment_step idx fs att seen).2 filt).2)) := by
  refine ⟨?_, ?_, ?_⟩
  · cases hE : (resolve_local idx fs att.file_name seen).1 with
    | nil =>
      right
      simp [attachment_step, hE]
    | cons a tl =>
      left
      constructor
      · simp [attachment_step, hE]
      · intro src hsrc
        simp only [attachment_step, hE, List.isEmpty_cons, Bool.false_eq_true,
          if_false] at hsrc
        obtain ⟨pf, _, hpf⟩ := List.mem_map.mp hsrc
        exact ⟨pf.1, pf.2, hpf.symm⟩
  · intro h
    cases idx with
    | none => rfl
    | some index =>
      have hr : resolve_local (some index) fs att.file_name seen
          = ([], seen) := by
        simp only [resolve_local]
        exact find_local_files_all_claimed att.file_name index fs seen
          (fun p hp => h p (by simpa [lookup_candidates] using hp))
      simp [attachment_step, hr]
  · intro rest filt hfilt
    simp [collect_sources, hfilt]

/-- Witness for `collect_sources_local_xor_remote`: with no index, a single
attachment resolves to exactly its remote URL. -/
theorem collect_sources_local_xor_remote_witness :
    (attachment_step none [] ⟨"u", "a.png"⟩ []).1
      = [MediaSource.Remote "u"] ∧
    collect_sources [⟨"u", "a.png"⟩] none [] [] (fun _ => true)
      = ([MediaSource.Remote "u"], []) := by
  have h := collect_sources_local_xor_remote none [] [] ⟨"u", "a.png"⟩
  refine ⟨h.2.1 ?_, ?_⟩
  · intro p hp
    simp [lookup_candidates] at hp
  · rw [h.2.2 [] (fun _ => true) rfl]
    decide

theorem asciiLower_digitChar (d : Nat) :
    asciiLowerChar (Nat.digitChar d) = Nat.digitChar d := by
  have h : Nat.digitChar d = '*' ∨ d < 16 := by
    by_cases hd : d < 16
    · exact Or.inr hd
    · left
      unfold Nat.digitChar
      repeat rw [if_neg (by omega)]
  rcases h with h | h
  · rw [h]; decide
  · interval_cases d <;> decide

theorem toDigitsCore_lower :
    ∀ (fuel n : Nat) (acc : List Char),
      (∀ c ∈ acc, asciiLowerChar c = c) →
      ∀ c ∈ Nat.toDigitsCore 10 fuel n acc, asciiLowerChar c = c := by
  intro fuel
  induction fuel with
  | zero => intro n acc hacc c hc; exact hacc c hc
  | succ fuel ih =>
    intro n acc hacc c hc
    unfold Nat.toDigitsCore at hc
    have hcons : ∀ x ∈ Nat.digitChar (n % 10) :: acc, asciiLowerChar x = x := by
      intro x hx
      rcases List.mem_cons.mp hx with hx | hx
      · rw [hx]; exact asciiLower_digitChar (n % 10)
      · exact hacc x hx
    by_cases hz : n / 10 = 0
    · rw [if_pos hz] at hc
      exact hcons c hc
    · rw [if_neg hz] at hc
      exact ih (n / 10) (Nat.digitChar (n % 10) :: acc) hcons c hc

theorem toString_nat_lower (n : Nat) :
    ∀ c ∈ (toString n).data, asciiLowerChar c = c := by
  intro c hc
  exact toDigitsCore_lower (n + 1) n [] (by intro x hx; cases hx) c hc

theorem map_asciiLower_fixed {l : List Char}
    (h : ∀ c ∈ l, asciiLowerChar c = c) : l.map asciiLowerChar = l := by
  induction l with
  | nil => rfl
  | cons a t ih =>
    rw [List.map_cons, h a (List.mem_cons_self a t),
      ih (fun c hc => h c (List.mem_cons_of_mem a hc))]

theorem toAsciiLower_fixed (s : String)
    (h : ∀ c ∈ s.data, asciiLowerChar c = c) : toAsciiLower s = s := by
  cases s with
  | mk data => exact congrArg String.mk (map_asciiLower_fixed h)

theorem toAsciiLower_avatar_name (id : Nat) (ext : String)
    (hext : ∀ c ∈ ext.data, asciiLowerChar c = c) :
    toAsciiLower (toString id ++ "." ++ ext) = toString id ++ "." ++ ext := by
  apply toAsciiLower_fixed
  intro c hc
  rw [String.data_append, String.data_append] at hc
  rcases List.mem_append.mp hc with hc | hc
  · rcases List.mem_append.mp hc with hc | hc
    · exact toString_nat_lower id c hc
    · have : c = '.' := by simpa using hc
      rw [this]; decide
  · exact hext c hc

theorem probe_variants_acc (fs : List MPath) (dir : List String)
    (stem ext : String) :
    ∀ (fuel i : Nat) (acc : List (MPath × String)) (seen : List MPath),
      ∃ t, (probe_variants fs dir stem ext fuel i acc seen).1 = acc ++ t := by
  intro fuel
  induction fuel with
  | zero => intro i acc seen; exact ⟨[], by simp [probe_variants]⟩
  | succ fuel ih =>
    intro i acc seen
    rw [probe_variants]
    by_cases hm : (⟨dir, stem ++ "_" ++ pad3 i ++ "." ++ ext⟩ : MPath) ∈ fs
    · rw [if_pos hm]
      by_cases hs : (⟨dir, stem ++ "_" ++ pad3 i ++ "." ++ ext⟩ : MPath) ∈ seen
      · rw [if_pos hs]
        exact ih (i + 1) acc seen
      · rw [if_neg hs]
        obtain ⟨t, ht⟩ := ih (i + 1)
          (acc ++ [(⟨dir, stem ++ "_" ++ pad3 i ++ "." ++ ext⟩,
            (⟨dir, stem ++ "_" ++ pad3 i ++ "." ++ ext⟩ : MPath).file)])
          ((⟨dir, stem ++ "_" ++ pad3 i ++ "." ++ ext⟩ : MPath) :: seen)
        exact ⟨_, by rw [ht, List.append_assoc]⟩
    · rw [if_neg hm]
      exact ⟨[], by simp⟩

theorem probe_variants_seen (fs : List MPath) (dir : List String)
    (stem ext : String) :
    ∀ (fuel i : Nat) (acc : List (MPath × String)) (seen : List MPath)
      (q : MPath), q ∈ seen →
      q ∈ (probe_variants fs dir stem ext fuel i acc seen).2 := by
  intro fuel
  induction fuel with
  | zero => intro i acc seen q hq; simpa [probe_variants] using hq
  | succ fuel ih =>
    intro i acc seen q hq
    rw [probe_variants]
    by_cases hm : (⟨dir, stem ++ "_" ++ pad3 i ++ "." ++ ext⟩ : MPath) ∈ fs
    · rw [if_pos hm]
      by_cases hs : (⟨dir, stem ++ "_" ++ pad3 i ++ "." ++ ext⟩ : MPath) ∈ seen
      · rw [if_pos hs]
        exact ih (i + 1) acc seen q hq
      · rw [if_neg hs]
        exact ih (i + 1) _ _ q (List.mem_cons_of_mem _ hq)
    · rw [if_neg hm]
      exact hq

theorem find_avatar_aux_inv (id : Nat) (idx : FileIndex) :
    ∀ (exts : List String) (p : MPath) (f : String),
      find_avatar_aux id idx exts = some (p, f) →
      ∃ ext, ext ∈ exts ∧ f = toString id ++ "." ++ ext ∧
        ∃ tail, indexLookup idx f = some (p :: tail) := by
  intro exts
  induction exts with
  | nil => intro p f h; simp [find_avatar_aux] at h
  | cons e rest ih =>
    intro p f h
    rw [find_avatar_aux, List.findSome?_cons] at h
    cases hv : (indexLookup idx (toString id ++ "." ++ e)).bind List.head? with
    | some q =>
      rw [hv] at h
      have hqp : q = p ∧ toString id ++ "." ++ e = f := by
        simpa using h
      obtain ⟨hq, hf⟩ := hqp
      subst hq
      obtain ⟨lst, hlst, hhead⟩ := Option.bind_eq_some.mp hv
      cases lst with
      | nil => cases hhead
      | cons a t =>
        have ha : a = q := by simpa using hhead
        subst ha
        refine ⟨e, List.mem_cons_self e rest, hf.symm, t, ?_⟩
        rw [hf] at hlst
        exact hlst
    | none =>
      rw [hv] at h
      simp only [Option.map_none'] at h
      obtain ⟨ext, hmem, hf, tail, hl⟩ := ih p f h
      exact ⟨ext, List.mem_cons_of_mem e hmem, hf, tail, hl⟩

theorem find_avatar_aux_first (id : Nat) (idx : FileIndex) :
    ∀ (pre : List String) (ext : String) (post : List String) (p : MPath),
      (∀ e ∈ pre,
        (indexLookup idx (toString id ++ "." ++ e)).bind List.head? = none) →
      (indexLookup idx (toString id ++ "." ++ ext)).bind List.head?
        = some p →
      find_avatar_aux id idx (pre ++ ext :: post)
        = some (p, toString id ++ "." ++ ext) := by
  intro pre
  induction pre with
  | nil =>
    intro ext post p _ hp
    rw [find_avatar_aux]
    rw [List.nil_append, List.findSome?_cons, hp]
    rfl
  | cons e pre ih =>
    intro ext post p hnone hp
    rw [find_avatar_aux, List.cons_append, List.findSome?_cons,
      hnone e (List.mem_cons_self e pre)]
    exact ih ext post p (fun x hx => hnone x (List.mem_cons_of_mem e hx)) hp

/-- C10: avatar resolution never claims a file.  `find_avatar` takes no
claimed-path set at all, so for every prior state it returns the head
candidate of the first extension (in `IMAGE_EXTENSIONS` order) whose
candidate list is non-empty, regardless of prior claims; and the returned
path, if still unclaimed, is exactly what a later attachment resolution of
the same file name will claim first (the claimed set used by that later
resolution is the untouched one). -/
theorem find_avatar_no_claim_first_match (id : Nat) (idx : FileIndex)
    (fs seen : List MPath) :
    (∀ (pre : List String) (ext : String) (post : List String) (p : MPath),
      IMAGE_EXTENSIONS = pre ++ ext :: post →
      (∀ e ∈ pre,
        (indexLookup idx (toString id ++ "." ++ e)).bind List.head? = none) →
      (indexLookup idx (toString id ++ "." ++ ext)).bind List.head?
        = some p →
      find_avatar id idx = some (p, toString id ++ "." ++ ext)) ∧
    (∀ (p : MPath) (f : String),
      find_avatar id idx = some (p, f) → p ∉ seen →
      (find_local_files f idx fs seen).1.head? = some (p, f) ∧
      p ∈ (find_local_files f idx fs seen).2) := by
  constructor
  · intro pre ext post p hEq hnone hp
    rw [find_avatar, hEq]
    exact find_avatar_aux_first id idx pre ext post p hnone hp
  · intro p f hfa hns
    obtain ⟨ext, hmem, hf, tail, hlook⟩ :=
      find_avatar_aux_inv id idx IMAGE_EXTENSIONS p f hfa
    have hextl : ∀ c ∈ ext.data, asciiLowerChar c = c := by
      have hall : ∀ e ∈ IMAGE_EXTENSIONS, ∀ c ∈ e.data,
          asciiLowerChar c = c := by decide
      exact hall ext hmem
    have hkey : toAsciiLower f = f := by
      rw [hf]; exact toAsciiLower_avatar_name id ext hextl
    have hffu : find_first_unclaimed (p :: tail) seen = (some p, p :: seen) := by
      simp [find_first_unclaimed, hns]
    rw [find_local_files, hkey, hlook]
    dsimp only
    rw [hffu]
    dsimp only
    rcases hsp : splitExt p.file with ⟨stem, oe⟩
    cases oe with
    | some e2 =>
      dsimp only
      constructor
      · obtain ⟨t, ht⟩ :=
          probe_variants_acc fs p.dir stem e2 (fs.length + 1) 1 [(p, f)]
            (p :: seen)
        rw [ht]
        rfl
      · exact probe_variants_seen fs p.dir stem e2 (fs.length + 1) 1 [(p, f)]
          (p :: seen) p (List.mem_cons_self p seen)
    | none =>
      dsimp only
      exact ⟨rfl, List.mem_cons_self p seen⟩

/-- Witness for `find_avatar_no_claim_first_match`: author 7 with an indexed
`7.jpg` resolves to that path without consuming it, and attachment
resolution from an empty claimed set then claims exactly that path. -/
theorem find_avatar_no_claim_first_match_witness :
    find_avatar 7 [("7.jpg", [⟨["m"], "7.jpg"⟩])] = some (⟨["m"], "7.jpg"⟩, "7.jpg") ∧
    (find_local_files "7.jpg" [("7.jpg", [⟨["m"], "7.jpg"⟩])] [] []).1.head?
      = some (⟨["m"], "7.jpg"⟩, "7.jpg") ∧
    (⟨["m"], "7.jpg"⟩ : MPath)
      ∈ (find_local_files "7.jpg" [("7.jpg", [⟨["m"], "7.jpg"⟩])] [] []).2 := by
  have h := find_avatar_no_claim_first_match 7 [("7.jpg", [⟨["m"], "7.jpg"⟩])] [] []
  have h1 : find_avatar 7 [("7.jpg", [⟨["m"], "7.jpg"⟩])]
      = some (⟨["m"], "7.jpg"⟩, "7.jpg") :=
    h.1 [] "jpg" ["jpeg", "png", "webp", "gif", "avif"] ⟨["m"], "7.jpg"⟩
      (by decide) (by intro e he; cases he) (by decide)
  have h2 := h.2 ⟨["m"], "7.jpg"⟩ "7.jpg" h1 (by decide)
  exact ⟨h1, h2.1, h2.2⟩

/-- C5: in text mode, a message whose transformed body text is empty and
with no resolved avatar produces 0 batches; a message with non-empty
transformed body text produces exactly 1 batch. -/
theorem text_mode_batch_count {ρ : Type} (message : MessageInfo)
    (avatar : Option (MPath × String)) (no_mentions button : Bool)
    (reactions : List ρ) (loadOk : MPath → Bool) :
    (replace_mentions message.content message.mentions no_mentions = "" →
      avatar = none →
      send_text_message message avatar no_mentions button reactions loadOk
        = []) ∧
    (replace_mentions message.content message.mentions no_mentions ≠ "" →
      (send_text_message message avatar no_mentions button reactions
        loadOk).length = 1) := by
  constructor
  · intro hc ha
    simp [send_text_message, hc, ha]
  · intro hc
    simp [send_text_message, hc]

/-- Witness for `text_mode_batch_count`: an empty message without avatar
yields no batch; a message reading "hi" yields one. -/
theorem text_mode_batch_count_witness :
    send_text_message ⟨"", ⟨0, "a", "", none⟩, [], []⟩ none false false
      ([] : List Bool) (fun _ => true) = [] ∧
    (send_text_message ⟨"hi", ⟨0, "a", "", none⟩, [], []⟩ none false false
      ([] : List Bool) (fun _ => true)).length = 1 := by
  constructor
  · exact (text_mode_batch_count ⟨"", ⟨0, "a", "", none⟩, [], []⟩ none false
      false ([] : List Bool) (fun _ => true)).1 rfl rfl
  · exact (text_mode_batch_count ⟨"hi", ⟨0, "a", "", none⟩, [], []⟩ none false
      false ([] : List Bool) (fun _ => true)).2 (by decide)

/-- C7: whenever the flag-parsing loop accepts an argument list, each of the
three conflicting combinations makes `parse_options` reject (return an
error) before anything is sent, and an option set with none of the three
conflicts is accepted unchanged. -/
theorem parse_options_validation (args : List String) (o : ImportOptions)
    (h : parse_flags args ImportOptions.default = Except.ok o) :
    ((o.no_reactions ∧ o.button) →
      ∃ e, parse_options args = Except.error e) ∧
    ((o.disable_button ∧ ¬o.button) →
      ∃ e, parse_options args = Except.error e) ∧
    ((o.no_embed ∧ ¬o.outside) →
      ∃ e, parse_options args = Except.error e) ∧
    (¬(o.no_reactions ∧ o.button) → ¬(o.disable_button ∧ ¬o.button) →
      ¬(o.no_embed ∧ ¬o.outside) →
      parse_options args = Except.ok o) := by
  refine ⟨?_, ?_, ?_, ?_⟩
  · intro hc
    unfold parse_options
    rw [h]
    dsimp only
    split_ifs <;> exact ⟨_, rfl⟩
  · intro hc
    unfold parse_options
    rw [h]
    dsimp only
    split_ifs <;> exact ⟨_, rfl⟩
  · intro hc
    unfold parse_options
    rw [h]
    dsimp only
    split_ifs <;> exact ⟨_, rfl⟩
  · intro h1 h2 h3
    unfold parse_options
    rw [h]
    dsimp only
    rw [if_neg h1, if_neg h2, if_neg h3]

/-- Witness for `parse_options_validation`: `--no-reactions --button` is
rejected; `--outside --no-embed` is accepted. -/
theorem parse_options_validation_witness :
    (∃ e, parse_options ["--no-reactions", "--button"] = Except.error e) ∧
    parse_options ["--outside", "--no-embed"]
      = Except.ok ⟨false, false, false, false, false, false, true, false,
          false, true, false, false, false, none, none, none, none⟩ := by
  constructor
  · exact (parse_options_validation ["--no-reactions", "--button"]
      ⟨false, false, false, false, false, true, false, true, false, false,
        false, false, false, none, none, none, none⟩ rfl).1 (by decide)
  · exact (parse_options_validation ["--outside", "--no-embed"]
      ⟨false, false, false, false, false, false, true, false, false, true,
        false, false, false, none, none, none, none⟩ rfl).2.2.2
      (by decide) (by decide) (by decide)

theorem import_loop_cancel_at {μ : Type} (cancelAt : Nat → Bool) :
    ∀ (msgs : List μ) (start t : Nat),
      (∀ j, j < t → cancelAt (start + j) = false) →
      cancelAt (start + t) = true →
      t < msgs.length →
      import_loop cancelAt msgs start = (msgs.take t, true) := by
  intro msgs
  induction msgs with
  | nil =>
    intro start t _ _ hlt
    simp at hlt
  | cons m rest ih =>
    intro start t hfalse htrue hlt
    cases t with
    | zero =>
      rw [Nat.add_zero] at htrue
      rw [import_loop, if_pos htrue]
      simp
    | succ t' =>
      have h0 : cancelAt start = false := by
        have := hfalse 0 (Nat.succ_pos t')
        simpa using this
      rw [import_loop, if_neg (by simp [h0])]
      have hrec := ih (start + 1) t'
        (fun j hj => by
          have := hfalse (j + 1) (by omega)
          have harith : start + (j + 1) = start + 1 + j := by omega
          rwa [harith] at this)
        (by
          have harith : start + (t' + 1) = start + 1 + t' := by omega
          rwa [harith] at htrue)
        (by simpa using Nat.lt_of_succ_lt_succ hlt)
      simp [hrec]

/-- C8: if the cancellation flag is unset at every poll up to message k and
set at the poll before message k+1 (which exists in the selected range),
then exactly messages 0..k of the selected range are processed, k+1 and
later are never reached, and the final report is the fixed cancellation
message instead of the success summary. -/
theorem cancellation_boundary (exp : Export)
    (rs re f l : Option Nat) (ng nc nch : Bool) (cancelAt : Nat → Bool)
    (k : Nat)
    (hbefore : ∀ i, i ≤ k → cancelAt i = false)
    (hset : cancelAt (k + 1) = true)
    (hlt : k + 1 < (select_messages exp.messages rs re f l).length) :
    run_import exp rs re f l ng nc nch cancelAt
      = ((select_messages exp.messages rs re f l).take (k + 1),
        "Import cancelled") := by
  have hloop := import_loop_cancel_at cancelAt
    (select_messages exp.messages rs re f l) 0 (k + 1)
    (fun j hj => by simpa using hbefore j (by omega))
    (by simpa using hset)
    hlt
  have hne : (select_messages exp.messages rs re f l).isEmpty = false := by
    cases hsel : select_messages exp.messages rs re f l with
    | nil => rw [hsel] at hlt; simp at hlt
    | cons a tl => rfl
  unfold run_import
  rw [if_neg (by simp [hne])]
  simp [hloop]

/-- The C8 scenario's export: three identical text messages. -/
def c8_export : Export :=
  ⟨⟨"g"⟩, ⟨"c", none⟩,
   [⟨"x", ⟨0, "a", "", none⟩, [], []⟩, ⟨"x", ⟨0, "a", "", none⟩, [], []⟩,
    ⟨"x", ⟨0, "a", "", none⟩, [], []⟩]⟩

/-- Witness for `cancellation_boundary`: cancelling after the first message
of three processes exactly one message and reports "Import cancelled". -/
theorem cancellation_boundary_witness :
    run_import c8_export none none none none false false false
      (fun i => decide (1 ≤ i))
      = ([⟨"x", ⟨0, "a", "", none⟩, [], []⟩], "Import cancelled") := by
  rw [cancellation_boundary c8_export none none none none false false false
    (fun i => decide (1 ≤ i)) 0
    (by
      intro i hi
      have h0 : i = 0 := Nat.le_zero.mp hi
      subst h0
      rfl)
    rfl
    (by decide)]
  rfl

theorem prepare_loop_limits (loadOk : MPath → Bool) (is_first : Bool)
    (content url : String) :
    ∀ (srcs : List MediaSource) (atts : List MPath) (embs : List BEmbed)
      (n : Nat),
      atts.length ≤ MAX_ATTACHMENTS → embs.length ≤ MAX_EMBEDS →
      (prepare_loop loadOk is_first content url srcs atts embs
        n).attachments.length ≤ MAX_ATTACHMENTS ∧
      (prepare_loop loadOk is_first content url srcs atts embs
        n).embeds.length ≤ MAX_EMBEDS := by
  intro srcs
  induction srcs with
  | nil =>
    intro atts embs n ha he
    exact ⟨ha, he⟩
  | cons s rest ih =>
    intro atts embs n ha he
    cases s with
    | Local path fname =>
      rw [prepare_loop]
      split_ifs with h1 h2 h3
      · exact ⟨ha, he⟩
      · exact ⟨ha, he⟩
      · apply ih
        · have hlt : ¬(atts.length ≥ MAX_ATTACHMENTS) := fun hge =>
            h2 ⟨rfl, hge⟩
          simp only [List.length_append, List.length_cons, List.length_nil]
          omega
        · simp only [List.length_append, List.length_cons, List.length_nil]
          omega
      · exact ih atts embs n ha he
    | Remote u =>
      rw [prepare_loop]
      split_ifs with h1 h2
      · exact ⟨ha, he⟩
      · exact ⟨ha, he⟩
      · apply ih
        · exact ha
        · simp only [List.length_append, List.length_cons, List.length_nil]
          omega

theorem prepare_batch_limits (images : List MediaSource)
    (avatar : Option (MPath × String)) (is_first : Bool)
    (content url : String) (loadOk : MPath → Bool) :
    (prepare_batch images avatar is_first content url
      loadOk).attachments.length ≤ MAX_ATTACHMENTS ∧
    (prepare_batch images avatar is_first content url
      loadOk).embeds.length ≤ MAX_EMBEDS := by
  unfold prepare_batch
  apply prepare_loop_limits
  · rcases avatar with _ | ⟨path, nm⟩ <;> cases is_first <;>
      simp [MAX_ATTACHMENTS] <;> split_ifs <;> simp
  · simp [MAX_EMBEDS]

theorem send_image_loop_limits {ρ : Type} (avatar : Option (MPath × String))
    (content url : String) (loadOk : MPath → Bool) (button : Bool)
    (reactions : List ρ) :
    ∀ (fuel : Nat) (remaining : List MediaSource) (is_first : Bool),
      ∀ b ∈ send_image_loop avatar content url loadOk button reactions fuel
        remaining is_first, within_limits b = true := by
  intro fuel
  induction fuel with
  | zero =>
    intro remaining is_first b hb
    simp [send_image_loop] at hb
  | succ fuel ih =>
    intro remaining is_first b hb
    rw [send_image_loop] at hb
    by_cases hre : remaining.isEmpty
    · rw [if_pos hre] at hb
      cases hb
    · rw [if_neg hre] at hb
      dsimp only at hb
      have hsent : ∀ c ∈ (if (prepare_batch remaining avatar is_first content
          url loadOk).embeds.isEmpty then ([] : List Reply)
          else [⟨none,
            (prepare_batch remaining avatar is_first content url
              loadOk).embeds,
            (prepare_batch remaining avatar is_first content url
              loadOk).attachments,
            has_button_row button reactions
              && decide (remaining.length ≤ (prepare_batch remaining avatar
                is_first content url loadOk).count)⟩]),
          within_limits c = true := by
        intro c hc
        by_cases hE : (prepare_batch remaining avatar is_first content url
          loadOk).embeds.isEmpty
        · rw [if_pos hE] at hc
          cases hc
        · rw [if_neg hE] at hc
          have hc1 : c = ⟨none,
              (prepare_batch remaining avatar is_first content url
                loadOk).embeds,
              (prepare_batch remaining avatar is_first content url
                loadOk).attachments,
              has_button_row button reactions
                && decide (remaining.length ≤ (prepare_batch remaining avatar
                  is_first content url loadOk).count)⟩ := by
            simpa using hc
          subst hc1
          have hpb := prepare_batch_limits remaining avatar is_first content
            url loadOk
          simp [within_limits, hpb.1, hpb.2]
      by_cases hc0 : (prepare_batch remaining avatar is_first content url
        loadOk).count = 0
      · rw [if_pos hc0] at hb
        exact hsent b hb
      · rw [if_neg hc0] at hb
        rcases List.mem_append.mp hb with hb | hb
        · exact hsent b hb
        · exact ih _ false b hb

theorem drain_batches_limits {ρ : Type} (button : Bool)
    (reactions : List ρ) :
    ∀ (fuel : Nat) (locals : List MPath),
      ∀ b ∈ drain_batches button reactions fuel locals,
        within_limits b = true := by
  intro fuel
  induction fuel with
  | zero =>
    intro locals b hb
    simp [drain_batches] at hb
  | succ fuel ih =>
    intro locals b hb
    rw [drain_batches] at hb
    by_cases hre : locals.isEmpty
    · rw [if_pos hre] at hb
      cases hb
    · rw [if_neg hre] at hb
      rcases List.mem_cons.mp hb with hb | hb
      · subst hb
        simp [within_limits, MAX_EMBEDS, MAX_ATTACHMENTS]
      · exact ih _ b hb

theorem isEmpty_false_of_length_ne {α : Type} (l : List α)
    (h : l.length ≠ 0) : l.isEmpty = false := by
  cases l with
  | nil => simp at h
  | cons a t => rfl

theorem isEmpty_true_of_length {α : Type} (l : List α)
    (h : l.length = 0) : l.isEmpty = true := by
  cases l with
  | nil => rfl
  | cons a t => simp at h

theorem prepare_loop_all_local (loadOk : MPath → Bool) (is_first : Bool)
    (content url : String) :
    ∀ (srcs : List MediaSource),
      (∀ s ∈ srcs, ∃ path name, s = MediaSource.Local path name ∧
        loadOk path = true) →
      ∀ (atts : List MPath) (embs : List BEmbed) (n : Nat),
        atts.length = embs.length →
        (prepare_loop loadOk is_first content url srcs atts embs
          n).attachments.length
            = atts.length + min srcs.length (MAX_EMBEDS - embs.length) ∧
        (prepare_loop loadOk is_first content url srcs atts embs
          n).embeds.length
            = embs.length + min srcs.length (MAX_EMBEDS - embs.length) ∧
        (prepare_loop loadOk is_first content url srcs atts embs n).count
            = n + min srcs.length (MAX_EMBEDS - embs.length) := by
  intro srcs
  induction srcs with
  | nil =>
    intro _ atts embs n _
    simp [prepare_loop]
  | cons s rest ih =>
    intro hall atts embs n hlen
    obtain ⟨path, name, rfl, hload⟩ := hall s (List.mem_cons_self s rest)
    rw [prepare_loop]
    split_ifs with h1 h2
    · have hz : MAX_EMBEDS - embs.length = 0 := by omega
      rw [hz]
      simp
    · exfalso
      rcases h2 with ⟨_, hge⟩
      simp only [MAX_ATTACHMENTS] at hge
      simp only [MAX_EMBEDS] at h1
      omega
    · obtain ⟨ha', he', hc'⟩ :=
        ih (fun x hx => hall x (List.mem_cons_of_mem _ hx))
          (atts ++ [path])
          (embs ++ [image_embed is_first n content url
            (some ("attachment://" ++ name))])
          (n + 1) (by simp [hlen])
      refine ⟨?_, ?_, ?_⟩
      · rw [ha']
        simp only [List.length_append, List.length_cons, List.length_nil]
        simp only [MAX_EMBEDS] at h1 ⊢
        omega
      · rw [he']
        simp only [List.length_append, List.length_cons, List.length_nil]
        simp only [MAX_EMBEDS] at h1 ⊢
        omega
      · rw [hc']
        simp only [List.length_append, List.length_cons, List.length_nil]
        simp only [MAX_EMBEDS] at h1 ⊢
        omega

theorem prepare_batch_all_local (srcs : List MediaSource)
    (loadOk : MPath → Bool) (is_first : Bool) (content url : String)
    (hall : ∀ s ∈ srcs, ∃ path name, s = MediaSource.Local path name ∧
      loadOk path = true) :
    (prepare_batch srcs none is_first content url
      loadOk).attachments.length = min srcs.length MAX_EMBEDS ∧
    (prepare_batch srcs none is_first content url loadOk).embeds.length
      = min srcs.length MAX_EMBEDS ∧
    (prepare_batch srcs none is_first content url loadOk).count
      = min srcs.length MAX_EMBEDS := by
  unfold prepare_batch
  dsimp only
  rw [ite_self]
  have h := prepare_loop_all_local loadOk is_first content url srcs hall
    [] [] 0 rfl
  simpa using h

/-- C4: 15 local image sources that all load, no resolved avatar, buttons
enabled and a non-empty reaction list yield exactly 2 batches, of 10 and 5
embeds (and as many attachments), and only the second, final batch carries
the reaction-button row. -/
theorem image_pagination_two_batches {ρ : Type} (message : MessageInfo)
    (srcs : List MediaSource) (loadOk : MPath → Bool) (reactions : List ρ)
    (embed_url : String) (no_mentions : Bool)
    (hlen : srcs.length = 15)
    (hall : ∀ s ∈ srcs, ∃ path name, s = MediaSource.Local path name ∧
      loadOk path = true)
    (hre : reactions ≠ []) :
    (send_image_messages message srcs none embed_url no_mentions true
      reactions loadOk).map
        (fun b => (b.embeds.length, b.attachments.length, b.buttons))
      = [(10, 10, false), (5, 5, true)] := by
  have hrb : reactions.isEmpty = false := by
    cases reactions with
    | nil => exact absurd rfl hre
    | cons a t => rfl
  unfold send_image_messages
  dsimp only
  set content := replace_mentions message.content message.mentions no_mentions
    with hcontent
  have h1 := prepare_batch_all_local srcs loadOk true content embed_url hall
  rw [hlen] at h1
  have hmin1 : min 15 MAX_EMBEDS = 10 := by decide
  rw [hmin1] at h1
  obtain ⟨h1a, h1e, h1c⟩ := h1
  have hSne : srcs.isEmpty = false :=
    isEmpty_false_of_length_ne srcs (by rw [hlen]; decide)
  rw [hlen, send_image_loop, if_neg (by simp [hSne])]
  dsimp only
  rw [h1c, hlen]
  rw [if_neg (by decide : ¬((10 : Nat) = 0))]
  have hEm1 : (prepare_batch srcs none true content embed_url
      loadOk).embeds.isEmpty = false :=
    isEmpty_false_of_length_ne _ (by rw [h1e]; decide)
  rw [if_neg (by simp [hEm1])]
  have hbtn1 : (has_button_row true reactions && decide ((15 : Nat) ≤ 10))
      = false := by
    rw [show (decide ((15 : Nat) ≤ 10)) = false from rfl, Bool.and_false]
  rw [hbtn1]
  have hall2 : ∀ s ∈ srcs.drop 10, ∃ path name,
      s = MediaSource.Local path name ∧ loadOk path = true :=
    fun s hs => hall s (List.drop_subset _ _ hs)
  have hd5 : (srcs.drop 10).length = 5 := by simp [hlen]
  have h2 := prepare_batch_all_local (srcs.drop 10) loadOk false content
    embed_url hall2
  rw [hd5] at h2
  have hmin2 : min 5 MAX_EMBEDS = 5 := by decide
  rw [hmin2] at h2
  obtain ⟨h2a, h2e, h2c⟩ := h2
  have hDne : (srcs.drop 10).isEmpty = false :=
    isEmpty_false_of_length_ne _ (by rw [hd5]; decide)
  rw [show (15 : Nat) = 14 + 1 from rfl, send_image_loop,
    if_neg (by simp [hDne])]
  dsimp only
  rw [h2c, hd5]
  rw [if_neg (by decide : ¬((5 : Nat) = 0))]
  have hEm2 : (prepare_batch (srcs.drop 10) none false content embed_url
      loadOk).embeds.isEmpty = false :=
    isEmpty_false_of_length_ne _ (by rw [h2e]; decide)
  rw [if_neg (by simp [hEm2])]
  have hdd : ((srcs.drop 10).drop 5).isEmpty = true :=
    isEmpty_true_of_length _ (by simp [hlen])
  rw [show (14 : Nat) = 13 + 1 from rfl, send_image_loop, if_pos hdd]
  simp [h1a, h1e, h2a, h2e, has_button_row, hrb]

/-- Witness for `image_pagination_two_batches`: 15 copies of one loadable
local source with a single reaction. -/
theorem image_pagination_two_batches_witness :
    (send_image_messages ⟨"", ⟨0, "a", "", none⟩, [], []⟩
      (List.replicate 15 (MediaSource.Local ⟨["m"], "p.png"⟩ "p.png")) none
      "u" false true [true] (fun _ => true)).map
        (fun b => (b.embeds.length, b.attachments.length, b.buttons))
      = [(10, 10, false), (5, 5, true)] := by
  apply image_pagination_two_batches
  · rfl
  · intro s hs
    have hs' := List.eq_of_mem_replicate hs
    exact ⟨⟨["m"], "p.png"⟩, "p.png", hs', rfl⟩
  · intro h
    cases h

/-- C6: every batch the composer produces, in every mode and for every
input — including when the avatar occupies an attachment slot of the first
batch — has at most 10 embeds and at most 10 attachments. -/
theorem batch_limits_all_modes {ρ : Type} (message : MessageInfo)
    (avatar : Option (MPath × String)) (no_mentions button has_base : Bool)
    (reactions : List ρ) (loadOk : MPath → Bool)
    (srcs : List MediaSource) (embed_url : String) :
    (send_text_message message avatar no_mentions button reactions
      loadOk).all within_limits = true ∧
    (send_image_messages message srcs avatar embed_url no_mentions button
      reactions loadOk).all within_limits = true ∧
    (send_outside_message message has_base srcs avatar no_mentions button
      reactions loadOk).all within_limits = true := by
  refine ⟨?_, ?_, ?_⟩
  · rw [List.all_eq_true]
    intro b hb
    unfold send_text_message at hb
    by_cases hE : replace_mentions message.content message.mentions
        no_mentions = "" ∧ avatar = none
    · rw [if_pos hE] at hb
      cases hb
    · rw [if_neg hE] at hb
      have hb1 := List.mem_singleton.mp hb
      subst hb1
      rcases avatar with _ | ⟨path, nm⟩ <;>
        simp [within_limits, MAX_EMBEDS, MAX_ATTACHMENTS] <;>
        split_ifs <;> simp
  · rw [List.all_eq_true]
    intro b hb
    unfold send_image_messages at hb
    exact send_image_loop_limits avatar
      (replace_mentions message.content message.mentions no_mentions)
      embed_url loadOk button reactions (srcs.length + 1) srcs true b hb
  · rw [List.all_eq_true]
    intro b hb
    unfold send_outside_message at hb
    dsimp only at hb
    rcases List.mem_append.mp hb with hb | hb
    · by_cases hbase : has_base
      · rw [if_pos hbase] at hb
        have hb1 := List.mem_singleton.mp hb
        subst hb1
        rcases avatar with _ | ⟨path, nm⟩ <;>
          simp [within_limits, MAX_EMBEDS, MAX_ATTACHMENTS] <;>
          split_ifs <;> simp
      · rw [if_neg hbase] at hb
        cases hb
    · set locals : List MPath := srcs.filterMap (fun s =>
        match s with
        | MediaSource.Local path _ => if loadOk path then some path else none
        | MediaSource.Remote _ => none) with hlocals
      by_cases hcond : (if (srcs.filterMap (fun s =>
          match s with
          | MediaSource.Local _ _ => none
          | MediaSource.Remote u => some u)).isEmpty then
            replace_mentions message.content message.mentions no_mentions
          else
            (if replace_mentions message.content message.mentions
                no_mentions = "" then
              replace_mentions message.content message.mentions no_mentions
            else
              replace_mentions message.content message.mentions no_mentions
                ++ "\n")
              ++ String.intercalate "\n" (srcs.filterMap (fun s =>
                match s with
                | MediaSource.Local _ _ => none
                | MediaSource.Remote u => some u))) ≠ ""
          ∨ ¬locals.isEmpty
      · rw [if_pos hcond] at hb
        rcases List.mem_cons.mp hb with hb | hb
        · subst hb
          simp only [within_limits, Bool.and_eq_true, decide_eq_true_eq]
          constructor
          · simp [MAX_EMBEDS]
          · simp only [List.length_take]
            omega
        · exact drain_batches_limits button reactions _ _ b hb
      · rw [if_neg hcond] at hb
        cases hb

end Dimport
